import Mathlib

/-!
Verification of the RetinaFace post-processing pipeline
(yakhyo/retinaface-pytorch: detect.py and webcam_inference.py).

The per-image post-processing of detect.py (main, lines 138-173) and
webcam_inference.py (main, lines 150-185) is embedded over exact rationals.
The helper routines decode, decode_landmarks and nms are imported by both
files from utils.box_utils, which is not part of the two source files; they
are modelled from the specification (sections 4.2, 4.3, 4.5), as marked in
their doc comments.  The real exponential arising in box decoding is
abstracted as a function parameter, since no verified property depends on
its values.
-/

section RetinaFacePostprocess

attribute [local semireducible] Rat.add Rat.mul Rat.sub Rat.inv

/-- Absolute corner-form bounding box (x1, y1, x2, y2). -/
structure Box where
  x1 : ℚ
  y1 : ℚ
  x2 : ℚ
  y2 : ℚ
deriving DecidableEq, Repr, Inhabited

/-- Area of a corner-form box, (x2 - x1) * (y2 - y1). -/
def Box.area (b : Box) : ℚ := (b.x2 - b.x1) * (b.y2 - b.y1)

/-- Intersection area of two corner-form boxes, clamped at zero. -/
def interArea (a b : Box) : ℚ :=
  max 0 (min a.x2 b.x2 - max a.x1 b.x1) * max 0 (min a.y2 b.y2 - max a.y1 b.y1)

/-- Modelled from the spec: Intersection-over-Union,
area(intersection) / (area(a) + area(b) - area(intersection)); a zero
denominator (degenerate boxes) yields 0 (section 4.5 of the spec; the
implementation lives in utils/box_utils.py, outside the two source files). -/
def iou (a b : Box) : ℚ :=
  let i := interArea a b
  let u := a.area + b.area - i
  if u = 0 then 0 else i / u

/-- Greedy suppression loop over the list of not-yet-processed indices:
pop the front index, keep it, and drop every later index whose box has
IoU above the threshold with the kept box.  The fuel argument makes the
recursion structural; it is initialised to the list length, which each
iteration strictly decreases, so fuel never runs out. -/
def nmsLoop (dets : List (Box × ℚ)) (t : ℚ) : Nat → List Nat → List Nat
  | _, [] => []
  | 0, _ :: _ => []
  | fuel + 1, i :: rest =>
      i :: nmsLoop dets t fuel
        (rest.filter fun j => iou (dets.getD i default).1 (dets.getD j default).1 ≤ t)

/-- Modelled from the spec: greedy NMS (section 4.5) over a list of
(box, score) rows already sorted by descending score; returns the kept
indices in order.  The implementation lives in utils/box_utils.py, outside
the two source files. -/
def nms (dets : List (Box × ℚ)) (t : ℚ) : List Nat :=
  nmsLoop dets t dets.length (List.range dets.length)

/-- A 2-d point with rational coordinates. -/
structure Point where
  x : ℚ
  y : ℚ
deriving DecidableEq, Repr, Inhabited

/-- Center-form anchor (prior box): (cx, cy, w, h). -/
structure Prior where
  cx : ℚ
  cy : ℚ
  w : ℚ
  h : ℚ
deriving DecidableEq, Repr, Inhabited

/-- One row of the raw location tensor: (dx, dy, dw, dh). -/
structure LocRow where
  dx : ℚ
  dy : ℚ
  dw : ℚ
  dh : ℚ
deriving DecidableEq, Repr, Inhabited

/-- One row of the raw landmark tensor: five point offsets. -/
structure LmRow where
  o1 : Point
  o2 : Point
  o3 : Point
  o4 : Point
  o5 : Point
deriving DecidableEq, Repr, Inhabited

/-- Five decoded landmark points (eyes, nose, mouth corners). -/
structure Landmark where
  p1 : Point
  p2 : Point
  p3 : Point
  p4 : Point
  p5 : Point
deriving DecidableEq, Repr, Inhabited

/-- One output row of the pipeline: bounding box, score and landmarks,
mirroring the final np.concatenate((detections, landmarks), axis=1). -/
structure Detection where
  box : Box
  score : ℚ
  lm : Landmark
deriving DecidableEq, Repr, Inhabited

/-- Detection-setting arguments of parse_arguments, as used by main. -/
structure Params where
  conf_threshold : ℚ
  pre_nms_topk : ℤ
  nms_threshold : ℚ
  post_nms_topk : ℤ
deriving DecidableEq, Repr

/-- Errors raised by the pipeline; only shape mismatches occur. -/
inductive PipelineError where
  | shapeMismatch
deriving DecidableEq, Repr

/-- Equality of pipeline results is decidable. -/
instance exceptDecidableEq {ε α : Type} [DecidableEq ε] [DecidableEq α] :
    DecidableEq (Except ε α) := fun x y =>
  match x, y with
  | .ok a, .ok b => decidable_of_iff (a = b) (by simp)
  | .error a, .error b => decidable_of_iff (a = b) (by simp)
  | .ok _, .error _ => isFalse (by simp)
  | .error _, .ok _ => isFalse (by simp)

/-- Decode one anchor: center shift by variance-scaled offsets, size by
variance-scaled exponential, then corner form (spec section 4.2).  The
exponential is passed in as the function expv. -/
def decodeRow (expv : ℚ → ℚ) (v0 v1 : ℚ) (p : Prior) (l : LocRow) : Box :=
  let cx := p.cx + l.dx * v0 * p.w
  let cy := p.cy + l.dy * v0 * p.h
  let w := p.w * expv (l.dw * v1)
  let h := p.h * expv (l.dh * v1)
  ⟨cx - w / 2, cy - h / 2, cx + w / 2, cy + h / 2⟩

/-- Modelled from the spec: decode of utils/box_utils.py (section 4.2),
which is outside the two source files.  Mismatched row counts make the
tensor arithmetic fail, modelled as a ShapeMismatch error. -/
def decode (expv : ℚ → ℚ) (loc : List LocRow) (priors : List Prior) (v0 v1 : ℚ) :
    Except PipelineError (List Box) :=
  if loc.length = priors.length then
    .ok ((loc.zip priors).map fun lp => decodeRow expv v0 v1 lp.2 lp.1)
  else
    .error .shapeMismatch

/-- Decode one landmark point: anchor center plus variance-scaled offset
(spec section 4.3). -/
def decodePoint (v0 : ℚ) (p : Prior) (o : Point) : Point :=
  ⟨p.cx + o.x * v0 * p.w, p.cy + o.y * v0 * p.h⟩

/-- Decode the five landmark points of one anchor. -/
def decodeLmRow (v0 : ℚ) (p : Prior) (r : LmRow) : Landmark :=
  ⟨decodePoint v0 p r.o1, decodePoint v0 p r.o2, decodePoint v0 p r.o3,
    decodePoint v0 p r.o4, decodePoint v0 p r.o5⟩

/-- Modelled from the spec: decode_landmarks of utils/box_utils.py
(section 4.3), which is outside the two source files.  Mismatched row
counts fail as in decode. -/
def decode_landmarks (pre : List LmRow) (priors : List Prior) (v0 : ℚ) :
    Except PipelineError (List Landmark) :=
  if pre.length = priors.length then
    .ok ((pre.zip priors).map fun lp => decodeLmRow v0 lp.2 lp.1)
  else
    .error .shapeMismatch

/-- Pixel-space scaling of a box by (W, H, W, H) and division by the
resize factor (boxes * bbox_scale / resize_factor). -/
def scaleBox (w h rf : ℚ) (b : Box) : Box :=
  ⟨b.x1 * w / rf, b.y1 * h / rf, b.x2 * w / rf, b.y2 * h / rf⟩

/-- Pixel-space scaling of one landmark point. -/
def scalePoint (w h rf : ℚ) (p : Point) : Point :=
  ⟨p.x * w / rf, p.y * h / rf⟩

/-- Pixel-space scaling of a landmark by (W, H) repeated five times and
division by the resize factor. -/
def scaleLandmark (w h rf : ℚ) (lm : Landmark) : Landmark :=
  ⟨scalePoint w h rf lm.p1, scalePoint w h rf lm.p2, scalePoint w h rf lm.p3,
    scalePoint w h rf lm.p4, scalePoint w h rf lm.p5⟩

/-- Boolean-mask selection, as in numpy fancy indexing with a mask of the
same length: keep the entries whose mask bit is true. -/
def applyMask {α : Type} : List Bool → List α → List α
  | true :: m, a :: l => a :: applyMask m l
  | false :: m, _ :: l => applyMask m l
  | _, _ => []

/-- numpy boolean indexing l[mask]: fails when the mask length disagrees
with the array length, otherwise keeps the marked entries. -/
def npMask {α : Type} (m : List Bool) (l : List α) : Except PipelineError (List α) :=
  if m.length = l.length then .ok (applyMask m l) else .error .shapeMismatch

/-- numpy argsort of a score list: the permutation of positions that lists
the scores in ascending order.  Modelled as a stable ascending sort
(insertion sort) on positions. -/
def argsortAsc (s : List ℚ) : List Nat :=
  List.insertionSort (fun i j => s.getD i 0 ≤ s.getD j 0) (List.range s.length)

/-- Python slice l[:k]: a nonnegative k keeps the first k entries, a
negative k drops the last -k entries. -/
def pyTake {α : Type} (k : ℤ) (l : List α) : List α :=
  if 0 ≤ k then l.take k.toNat else l.take (l.length - (-k).toNat)

/-- numpy integer fancy indexing l[idx]. -/
def select {α : Type} [Inhabited α] (l : List α) (idx : List Nat) : List α :=
  idx.map fun i => l.getD i default

/-- The decoded, pixel-scaled box of every anchor, in anchor order. -/
def decodedBoxes (expv : ℚ → ℚ) (priors : List Prior) (loc : List LocRow)
    (v0 v1 img_width img_height : ℚ) : List Box :=
  ((loc.zip priors).map fun lp => decodeRow expv v0 v1 lp.2 lp.1).map
    (scaleBox img_width img_height 1)

/-- The decoded, pixel-scaled landmarks of every anchor, in anchor order. -/
def decodedLandmarks (priors : List Prior) (landmarks : List LmRow)
    (v0 img_width img_height : ℚ) : List Landmark :=
  ((landmarks.zip priors).map fun lp => decodeLmRow v0 lp.2 lp.1).map
    (scaleLandmark img_width img_height 1)

/-- The foreground score of every anchor: column 1 of the confidence
tensor (scores = conf[:, 1]). -/
def anchorScores (conf : List (ℚ × ℚ)) : List ℚ :=
  conf.map Prod.snd

/-- The per-image post-processing of main in detect.py (lines 138-173):
decode boxes and landmarks, scale to pixel space, filter by the strict
confidence threshold, sort by descending score with pre-NMS truncation,
apply NMS, truncate to the post-NMS top-k, and merge boxes, scores and
landmarks into detections.  The resize factor is the local constant 1 of
the source. -/
def detect_postprocess (expv : ℚ → ℚ) (priors : List Prior) (loc : List LocRow)
    (conf : List (ℚ × ℚ)) (landmarks : List LmRow)
    (v0 v1 img_width img_height : ℚ) (params : Params) :
    Except PipelineError (List Detection) := do
  let resize_factor : ℚ := 1
  let boxes ← decode expv loc priors v0 v1
  let landmarks ← decode_landmarks landmarks priors v0
  let boxes := boxes.map (scaleBox img_width img_height resize_factor)
  let landmarks := landmarks.map (scaleLandmark img_width img_height resize_factor)
  let scores := conf.map Prod.snd
  let inds := scores.map fun s => decide (params.conf_threshold < s)
  let boxes ← npMask inds boxes
  let landmarks ← npMask inds landmarks
  let scores ← npMask inds scores
  let order := pyTake params.pre_nms_topk (argsortAsc scores).reverse
  let boxes := select boxes order
  let landmarks := select landmarks order
  let scores := select scores order
  let detections := boxes.zip scores
  let keep := nms detections params.nms_threshold
  let detections := select detections keep
  let landmarks := select landmarks keep
  let detections := pyTake params.post_nms_topk detections
  let landmarks := pyTake params.post_nms_topk landmarks
  .ok ((detections.zip landmarks).map fun dl => ⟨dl.1.1, dl.1.2, dl.2⟩)

/-- The candidate list entering NMS in detect.py: the same steps as
detect_postprocess up to and including the pre-NMS sort and truncation,
returning the stacked (box, score) rows handed to nms. -/
def detect_nms_input (expv : ℚ → ℚ) (priors : List Prior) (loc : List LocRow)
    (conf : List (ℚ × ℚ)) (landmarks : List LmRow)
    (v0 v1 img_width img_height : ℚ) (params : Params) :
    Except PipelineError (List (Box × ℚ)) := do
  let resize_factor : ℚ := 1
  let boxes ← decode expv loc priors v0 v1
  let landmarks ← decode_landmarks landmarks priors v0
  let boxes := boxes.map (scaleBox img_width img_height resize_factor)
  let _ := landmarks.map (scaleLandmark img_width img_height resize_factor)
  let scores := conf.map Prod.snd
  let inds := scores.map fun s => decide (params.conf_threshold < s)
  let boxes ← npMask inds boxes
  let scores ← npMask inds scores
  let order := pyTake params.pre_nms_topk (argsortAsc scores).reverse
  let boxes := select boxes order
  let scores := select scores order
  .ok (boxes.zip scores)

/-- The per-image post-processing of the webcam loop of main in
webcam_inference.py (lines 150-185), translated independently from that
file; the steps are line-for-line those of detect.py. -/
def webcam_postprocess (expv : ℚ → ℚ) (priors : List Prior) (loc : List LocRow)
    (conf : List (ℚ × ℚ)) (landmarks : List LmRow)
    (v0 v1 img_width img_height : ℚ) (params : Params) :
    Except PipelineError (List Detection) := do
  let resize_factor : ℚ := 1
  let boxes ← decode expv loc priors v0 v1
  let landmarks ← decode_landmarks landmarks priors v0
  let boxes := boxes.map (scaleBox img_width img_height resize_factor)
  let landmarks := landmarks.map (scaleLandmark img_width img_height resize_factor)
  let scores := conf.map Prod.snd
  let inds := scores.map fun s => decide (params.conf_threshold < s)
  let boxes ← npMask inds boxes
  let landmarks ← npMask inds landmarks
  let scores ← npMask inds scores
  let order := pyTake params.pre_nms_topk (argsortAsc scores).reverse
  let boxes := select boxes order
  let landmarks := select landmarks order
  let scores := select scores order
  let detections := boxes.zip scores
  let keep := nms detections params.nms_threshold
  let detections := select detections keep
  let landmarks := select landmarks keep
  let detections := pyTake params.post_nms_topk detections
  let landmarks := pyTake params.post_nms_topk landmarks
  .ok ((detections.zip landmarks).map fun dl => ⟨dl.1.1, dl.1.2, dl.2⟩)

/-- The boolean confidence mask inds = scores > conf_threshold. -/
def confMask (conf : List (ℚ × ℚ)) (t : ℚ) : List Bool :=
  (conf.map Prod.snd).map fun s => decide (t < s)

/-- The filter-sort-suppress-truncate-assemble tail of the pipeline over
already decoded arrays: the confidence mask, the pre-NMS ordering, NMS,
the post-NMS truncation and the final merge, each applied to the box,
score and landmark arrays exactly as in the source. -/
def corePipeline (mask : List Bool) (decBoxes : List Box) (decScores : List ℚ)
    (decLms : List Landmark) (pre post : ℤ) (tn : ℚ) : List Detection :=
  let boxes := applyMask mask decBoxes
  let lms := applyMask mask decLms
  let scores := applyMask mask decScores
  let order := pyTake pre (argsortAsc scores).reverse
  let boxesO := select boxes order
  let lmsO := select lms order
  let scoresO := select scores order
  let dets := boxesO.zip scoresO
  let keep := nms dets tn
  let detsK := select dets keep
  let lmsK := select lmsO keep
  let detsT := pyTake post detsK
  let lmsT := pyTake post lmsK
  (detsT.zip lmsT).map fun dl => ⟨dl.1.1, dl.1.2, dl.2⟩

/-- The result of detect_postprocess when all shapes agree, written
without the error plumbing; proved equal to the checked pipeline in
detect_postprocess_ok. -/
def postprocessPure (expv : ℚ → ℚ) (priors : List Prior) (loc : List LocRow)
    (conf : List (ℚ × ℚ)) (landmarks : List LmRow)
    (v0 v1 img_width img_height : ℚ) (params : Params) : List Detection :=
  corePipeline (confMask conf params.conf_threshold)
    (decodedBoxes expv priors loc v0 v1 img_width img_height)
    (anchorScores conf)
    (decodedLandmarks priors landmarks v0 img_width img_height)
    params.pre_nms_topk params.post_nms_topk params.nms_threshold

/-- The result of detect_nms_input when all shapes agree, written without
the error plumbing. -/
def nmsInputPure (expv : ℚ → ℚ) (priors : List Prior) (loc : List LocRow)
    (conf : List (ℚ × ℚ)) (v0 v1 img_width img_height : ℚ) (params : Params) :
    List (Box × ℚ) :=
  let boxes := applyMask (confMask conf params.conf_threshold)
    (decodedBoxes expv priors loc v0 v1 img_width img_height)
  let scores := applyMask (confMask conf params.conf_threshold) (anchorScores conf)
  let order := pyTake params.pre_nms_topk (argsortAsc scores).reverse
  (select boxes order).zip (select scores order)

theorem iou_comm (a b : Box) : iou a b = iou b a := by
  unfold iou interArea Box.area
  rw [min_comm a.x2, max_comm a.x1, min_comm a.y2, max_comm a.y1]
  ring_nf

theorem nmsLoop_subset (dets : List (Box × ℚ)) (t : ℚ) :
    ∀ fuel l, ∀ i ∈ nmsLoop dets t fuel l, i ∈ l := by
  intro fuel
  induction fuel with
  | zero =>
      intro l i h
      cases l <;> simp [nmsLoop] at h
  | succ n ih =>
      intro l i h
      cases l with
      | nil => simp [nmsLoop] at h
      | cons a rest =>
          simp only [nmsLoop] at h
          rcases List.mem_cons.mp h with h | h
          · simp [h]
          · exact List.mem_cons_of_mem _ (List.mem_of_mem_filter (ih _ i h))

theorem nmsLoop_pairwise (dets : List (Box × ℚ)) (t : ℚ) :
    ∀ fuel l, (nmsLoop dets t fuel l).Pairwise
      (fun i j => iou (dets.getD i default).1 (dets.getD j default).1 ≤ t) := by
  intro fuel
  induction fuel with
  | zero =>
      intro l
      cases l <;> simp [nmsLoop]
  | succ n ih =>
      intro l
      cases l with
      | nil => simp [nmsLoop]
      | cons a rest =>
          simp only [nmsLoop]
          refine List.pairwise_cons.mpr ⟨?_, ih _⟩
          intro j hj
          have hmem := nmsLoop_subset dets t _ _ j hj
          have := (List.mem_filter.mp hmem).2
          simpa using this

/-- C1: every pair of distinct indices kept by NMS has IoU at most the
threshold: no two surviving detections overlap above the threshold. -/
theorem nms_kept_pairwise_iou_le (dets : List (Box × ℚ)) (t : ℚ)
    (p q : Nat) (hp : p ∈ nms dets t) (hq : q ∈ nms dets t) (hne : p ≠ q) :
    iou (dets.getD p default).1 (dets.getD q default).1 ≤ t := by
  have hpw := nmsLoop_pairwise dets t dets.length (List.range dets.length)
  have hsymm : Symmetric
      (fun i j => iou (dets.getD i default).1 (dets.getD j default).1 ≤ t) := by
    intro i j h
    rw [iou_comm]
    exact h
  exact List.Pairwise.forall hsymm hpw hp hq hne

/-- Witness for C1: a concrete run where two non-overlapping boxes are both
kept; their pairwise IoU is below the threshold. -/
theorem nms_kept_pairwise_iou_le_witness :
    0 ∈ nms [(⟨0, 0, 10, 10⟩, (9 : ℚ)/10), (⟨20, 20, 30, 30⟩, (8 : ℚ)/10)] ((4 : ℚ)/10) ∧
    1 ∈ nms [(⟨0, 0, 10, 10⟩, (9 : ℚ)/10), (⟨20, 20, 30, 30⟩, (8 : ℚ)/10)] ((4 : ℚ)/10) ∧
    iou ((([(⟨0, 0, 10, 10⟩, (9 : ℚ)/10), (⟨20, 20, 30, 30⟩, (8 : ℚ)/10)] :
        List (Box × ℚ)).getD 0 default).1)
      ((([(⟨0, 0, 10, 10⟩, (9 : ℚ)/10), (⟨20, 20, 30, 30⟩, (8 : ℚ)/10)] :
        List (Box × ℚ)).getD 1 default).1) ≤ (4 : ℚ)/10 :=
  ⟨by decide, by decide,
    nms_kept_pairwise_iou_le _ _ 0 1 (by decide) (by decide) (by decide)⟩

theorem except_ok_bind {ε α β : Type} (a : α) (f : α → Except ε β) :
    (Except.ok a >>= f) = f a := rfl

theorem except_error_bind {ε α β : Type} (e : ε) (f : α → Except ε β) :
    ((Except.error e : Except ε α) >>= f) = .error e := rfl

/-- When all row counts agree, the checked pipeline succeeds and returns
the plain composition postprocessPure. -/
theorem detect_postprocess_ok (expv : ℚ → ℚ) (priors : List Prior) (loc : List LocRow)
    (conf : List (ℚ × ℚ)) (landmarks : List LmRow)
    (v0 v1 img_width img_height : ℚ) (params : Params)
    (h1 : loc.length = priors.length) (h2 : conf.length = priors.length)
    (h3 : landmarks.length = priors.length) :
    detect_postprocess expv priors loc conf landmarks v0 v1 img_width img_height params =
      .ok (postprocessPure expv priors loc conf landmarks v0 v1 img_width img_height params) := by
  unfold detect_postprocess postprocessPure corePipeline decode decode_landmarks npMask
    decodedBoxes decodedLandmarks anchorScores confMask
  simp only [h1, h2, h3, List.length_map, List.length_zip, min_self, if_true,
    except_ok_bind, except_error_bind, reduceIte]

/-- C5: a row-count disagreement between the anchors and any raw output
tensor makes the whole pipeline invocation fail with a shape-mismatch
error; no detection list is produced. -/
theorem detect_postprocess_shape_mismatch (expv : ℚ → ℚ) (priors : List Prior)
    (loc : List LocRow) (conf : List (ℚ × ℚ)) (landmarks : List LmRow)
    (v0 v1 img_width img_height : ℚ) (params : Params)
    (h : loc.length ≠ priors.length ∨ conf.length ≠ priors.length ∨
      landmarks.length ≠ priors.length) :
    detect_postprocess expv priors loc conf landmarks v0 v1 img_width img_height params =
      .error .shapeMismatch := by
  by_cases h1 : loc.length = priors.length
  · by_cases h3 : landmarks.length = priors.length
    · by_cases h2 : conf.length = priors.length
      · rcases h with h | h | h <;> exact absurd (by assumption) h
      · unfold detect_postprocess decode decode_landmarks npMask
        simp only [h1, h3, List.length_map, List.length_zip, min_self, if_true,
          except_ok_bind, except_error_bind, reduceIte]
        rw [if_neg (by simpa using h2)]
        rfl
    · unfold detect_postprocess decode decode_landmarks
      simp only [h1, if_true, except_ok_bind, reduceIte]
      rw [if_neg h3]
      rfl
  · unfold detect_postprocess decode
    rw [if_neg h1]
    rfl

/-- Witness for C5: one anchor but an empty location tensor yields the
shape-mismatch error. -/
theorem detect_postprocess_shape_mismatch_witness :
    (([] : List LocRow).length ≠ ([⟨0, 0, 1, 1⟩] : List Prior).length ∨
      ([(0, 1)] : List (ℚ × ℚ)).length ≠ ([⟨0, 0, 1, 1⟩] : List Prior).length ∨
      ([⟨⟨0, 0⟩, ⟨0, 0⟩, ⟨0, 0⟩, ⟨0, 0⟩, ⟨0, 0⟩⟩] : List LmRow).length ≠
        ([⟨0, 0, 1, 1⟩] : List Prior).length) ∧
    detect_postprocess (fun q => q) [⟨0, 0, 1, 1⟩] [] [(0, 1)]
      [⟨⟨0, 0⟩, ⟨0, 0⟩, ⟨0, 0⟩, ⟨0, 0⟩, ⟨0, 0⟩⟩] 1 1 1 1 ⟨0, 10, 1, 10⟩ =
      .error .shapeMismatch :=
  ⟨by decide,
    detect_postprocess_shape_mismatch (fun q => q) [⟨0, 0, 1, 1⟩] [] [(0, 1)]
      [⟨⟨0, 0⟩, ⟨0, 0⟩, ⟨0, 0⟩, ⟨0, 0⟩, ⟨0, 0⟩⟩] 1 1 1 1 ⟨0, 10, 1, 10⟩ (by decide)⟩

/-- C10: given the same raw network outputs, priors, variances, image
dimensions and parameters, the per-image post-processing of detect.py and
of the webcam loop of webcam_inference.py produce exactly the same
result. -/
theorem detect_webcam_postprocess_eq (expv : ℚ → ℚ) (priors : List Prior)
    (loc : List LocRow) (conf : List (ℚ × ℚ)) (landmarks : List LmRow)
    (v0 v1 img_width img_height : ℚ) (params : Params) :
    detect_postprocess expv priors loc conf landmarks v0 v1 img_width img_height params =
      webcam_postprocess expv priors loc conf landmarks v0 v1 img_width img_height params :=
  rfl

theorem applyMask_map {α β : Type} (f : α → β) :
    ∀ (m : List Bool) (l : List α),
      applyMask m (l.map f) = (applyMask m l).map f := by
  intro m
  induction m with
  | nil => intro l; cases l <;> simp [applyMask]
  | cons b m ih =>
      intro l
      cases l with
      | nil => cases b <;> simp [applyMask]
      | cons a l => cases b <;> simp [applyMask, ih]

theorem applyMask_sublist {α : Type} :
    ∀ (m : List Bool) (l : List α), List.Sublist (applyMask m l) l := by
  intro m
  induction m with
  | nil => intro l; cases l <;> simp [applyMask]
  | cons b m ih =>
      intro l
      cases l with
      | nil => cases b <;> simp [applyMask]
      | cons a l =>
          cases b with
          | false => exact (ih l).cons a
          | true => exact (ih l).cons₂ a

theorem applyMask_false_nil {α : Type} :
    ∀ (m : List Bool) (l : List α), (∀ b ∈ m, b = false) → applyMask m l = [] := by
  intro m
  induction m with
  | nil => intro l _; cases l <;> simp [applyMask]
  | cons b m ih =>
      intro l hb
      cases l with
      | nil => cases b <;> simp [applyMask]
      | cons a l =>
          have : b = false := hb b (by simp)
          subst this
          simpa [applyMask] using ih l fun x hx => hb x (by simp [hx])

theorem map_getD_range {α : Type} [Inhabited α] (l : List α) :
    (List.range l.length).map (fun i => l.getD i default) = l := by
  apply List.ext_getElem
  · simp
  · intro n h1 h2
    simp only [List.getElem_map, List.getElem_range]
    exact List.getD_eq_getElem l default (by simpa using h2)

theorem applyMask_getD_trace {α : Type} [Inhabited α] (m : List Bool) (l : List α) :
    applyMask m l = (applyMask m (List.range l.length)).map fun i => l.getD i default := by
  conv_lhs => rw [← map_getD_range l]
  exact applyMask_map _ m (List.range l.length)

theorem select_map {α β : Type} [Inhabited α] [Inhabited β] (f : α → β)
    (l : List α) (idx : List Nat) (hb : ∀ i ∈ idx, i < l.length) :
    select (l.map f) idx = (select l idx).map f := by
  unfold select
  rw [List.map_map]
  apply List.map_congr_left
  intro i hi
  have h : i < l.length := hb i hi
  have h2 : i < (l.map f).length := by simpa using h
  simp only [Function.comp_apply]
  rw [List.getD_eq_getElem _ _ h2, List.getD_eq_getElem _ _ h, List.getElem_map]

theorem select_mem {α : Type} [Inhabited α] (l : List α) (idx : List Nat)
    (hb : ∀ i ∈ idx, i < l.length) : ∀ x ∈ select l idx, x ∈ l := by
  intro x hx
  unfold select at hx
  rcases List.mem_map.mp hx with ⟨i, hi, rfl⟩
  rw [List.getD_eq_getElem _ _ (hb i hi)]
  exact List.getElem_mem _

theorem pyTake_sublist {α : Type} (k : ℤ) (l : List α) : List.Sublist (pyTake k l) l := by
  unfold pyTake
  split <;> exact List.take_sublist _ _

theorem pyTake_map {α β : Type} (f : α → β) (k : ℤ) (l : List α) :
    pyTake k (l.map f) = (pyTake k l).map f := by
  unfold pyTake
  split <;> simp [List.map_take]

theorem pyTake_nil {α : Type} (k : ℤ) : pyTake k ([] : List α) = [] := by
  unfold pyTake
  split <;> simp

theorem pyTake_length_le {α : Type} (k : ℤ) (hk : 0 ≤ k) (l : List α) :
    (pyTake k l).length ≤ k.toNat := by
  unfold pyTake
  rw [if_pos hk]
  simp [List.length_take]

theorem length_pyTake_eq {α β : Type} (k : ℤ) (l₁ : List α) (l₂ : List β)
    (h : l₁.length = l₂.length) : (pyTake k l₁).length = (pyTake k l₂).length := by
  unfold pyTake
  split <;> simp [List.length_take, h]

theorem nmsLoop_sublist (dets : List (Box × ℚ)) (t : ℚ) :
    ∀ fuel l, List.Sublist (nmsLoop dets t fuel l) l := by
  intro fuel
  induction fuel with
  | zero =>
      intro l
      cases l <;> simp [nmsLoop]
  | succ n ih =>
      intro l
      cases l with
      | nil => simp [nmsLoop]
      | cons a rest =>
          simp only [nmsLoop]
          exact ((ih _).trans (List.filter_sublist rest)).cons₂ a

theorem nms_sublist_range (dets : List (Box × ℚ)) (t : ℚ) :
    List.Sublist (nms dets t) (List.range dets.length) :=
  nmsLoop_sublist dets t dets.length (List.range dets.length)

theorem nms_mem_lt (dets : List (Box × ℚ)) (t : ℚ) :
    ∀ i ∈ nms dets t, i < dets.length := by
  intro i hi
  exact List.mem_range.mp ((nms_sublist_range dets t).subset hi)

theorem argsortAsc_mem (s : List ℚ) : ∀ i ∈ argsortAsc s, i < s.length := by
  intro i hi
  exact List.mem_range.mp ((List.perm_insertionSort _ _).subset hi)

theorem argsortAsc_sorted (s : List ℚ) :
    (argsortAsc s).Pairwise fun i j => s.getD i 0 ≤ s.getD j 0 := by
  haveI : IsTotal Nat fun i j => s.getD i 0 ≤ s.getD j 0 := ⟨fun a b => le_total _ _⟩
  haveI : IsTrans Nat fun i j => s.getD i 0 ≤ s.getD j 0 := ⟨fun a b c => le_trans⟩
  exact List.sorted_insertionSort _ _

theorem pairwise_select {α : Type} [Inhabited α] {R : α → α → Prop} {l : List α}
    (hl : l.Pairwise R) {idx : List Nat} (hpw : idx.Pairwise (· < ·))
    (hb : ∀ i ∈ idx, i < l.length) : (select l idx).Pairwise R := by
  unfold select
  rw [List.pairwise_map]
  have hget := List.pairwise_iff_getElem.mp hl
  refine hpw.imp_of_mem ?_
  intro a b ha hb2 hab
  rw [List.getD_eq_getElem _ _ (hb a ha), List.getD_eq_getElem _ _ (hb b hb2)]
  exact hget a b (hb a ha) (hb b hb2) hab

theorem applyMask_decide_filter {α : Type} (t : ℚ) :
    ∀ (s : List ℚ) (l : List α), s.length = l.length →
      applyMask (s.map fun x => decide (t < x)) l =
        ((s.zip l).filter fun p => decide (t < p.1)).map Prod.snd := by
  intro s
  induction s with
  | nil =>
      intro l h
      cases l with
      | nil => simp [applyMask]
      | cons a l => simp at h
  | cons x xs ih =>
      intro l h
      cases l with
      | nil => simp at h
      | cons a l =>
          by_cases hx : t < x <;>
            simp [applyMask, hx, ih l (by simpa using h)]

theorem applyMask_self_strict (t : ℚ) :
    ∀ s : List ℚ, ∀ x ∈ applyMask (s.map fun v => decide (t < v)) s, t < x := by
  intro s
  induction s with
  | nil => simp [applyMask]
  | cons v vs ih =>
      intro x hx
      simp only [List.map_cons] at hx
      by_cases hv : t < v
      · rw [decide_eq_true hv] at hx
        rcases List.mem_cons.mp hx with rfl | hx
        · exact hv
        · exact ih x hx
      · rw [decide_eq_false hv] at hx
        exact ih x hx

/-- C4: the confidence filter (inds = scores > conf_threshold, applied as
a boolean mask) keeps exactly the rows whose foreground score strictly
exceeds the threshold, and every surviving score is strictly above it, so
a score equal to the threshold is discarded. -/
theorem confidence_filter_strict {α : Type} [Inhabited α] (conf : List (ℚ × ℚ))
    (t : ℚ) (l : List α) (h : conf.length = l.length) :
    applyMask (confMask conf t) l =
      (((anchorScores conf).zip l).filter fun p => decide (t < p.1)).map Prod.snd ∧
    ∀ s ∈ applyMask (confMask conf t) (anchorScores conf), t < s := by
  constructor
  · exact applyMask_decide_filter t (anchorScores conf) l
      (by simpa [anchorScores] using h)
  · exact applyMask_self_strict t (anchorScores conf)

/-- Witness for C4: at threshold 1/4 the anchor scoring exactly 1/4 is
discarded and only the strictly larger score 1/2 survives. -/
theorem confidence_filter_strict_witness :
    ([((0 : ℚ), (1 : ℚ)/2), (0, 1/4)].length = ([10, 20] : List ℚ).length) ∧
    (applyMask (confMask [((0 : ℚ), (1 : ℚ)/2), (0, 1/4)] (1/4)) ([10, 20] : List ℚ) =
      (((anchorScores [((0 : ℚ), (1 : ℚ)/2), (0, 1/4)]).zip ([10, 20] : List ℚ)).filter
        fun p => decide ((1 : ℚ)/4 < p.1)).map Prod.snd ∧
    ∀ s ∈ applyMask (confMask [((0 : ℚ), (1 : ℚ)/2), (0, 1/4)] (1/4))
      (anchorScores [((0 : ℚ), (1 : ℚ)/2), (0, 1/4)]), (1 : ℚ)/4 < s) :=
  ⟨by decide, confidence_filter_strict [((0 : ℚ), (1 : ℚ)/2), (0, 1/4)] (1/4)
    ([10, 20] : List ℚ) (by decide)⟩

/-- C8: when no anchor score strictly exceeds the confidence threshold,
the pipeline completes without error and returns the empty detection
list. -/
theorem detect_postprocess_empty_when_none_pass (expv : ℚ → ℚ) (priors : List Prior)
    (loc : List LocRow) (conf : List (ℚ × ℚ)) (landmarks : List LmRow)
    (v0 v1 img_width img_height : ℚ) (params : Params)
    (h1 : loc.length = priors.length) (h2 : conf.length = priors.length)
    (h3 : landmarks.length = priors.length)
    (hs : ∀ s ∈ anchorScores conf, s ≤ params.conf_threshold) :
    detect_postprocess expv priors loc conf landmarks v0 v1 img_width img_height params =
      .ok [] := by
  rw [detect_postprocess_ok expv priors loc conf landmarks v0 v1 img_width img_height
    params h1 h2 h3]
  have hmask : ∀ b ∈ confMask conf params.conf_threshold, b = false := by
    intro b hb
    rcases List.mem_map.mp hb with ⟨s, hsmem, rfl⟩
    exact decide_eq_false (not_lt.mpr (hs s hsmem))
  unfold postprocessPure corePipeline
  rw [applyMask_false_nil _ _ hmask, applyMask_false_nil _ _ hmask,
    applyMask_false_nil _ _ hmask]
  simp [argsortAsc, select, pyTake_nil, nms, nmsLoop]

/-- Witness for C8: a single anchor scoring 1/4 against threshold 1/2
yields the empty detection list without error. -/
theorem detect_postprocess_empty_when_none_pass_witness :
    (([⟨0, 0, 0, 0⟩] : List LocRow).length = ([⟨0, 0, 2, 2⟩] : List Prior).length ∧
      ([((0 : ℚ), (1 : ℚ)/4)] : List (ℚ × ℚ)).length = ([⟨0, 0, 2, 2⟩] : List Prior).length ∧
      ([⟨⟨0, 0⟩, ⟨0, 0⟩, ⟨0, 0⟩, ⟨0, 0⟩, ⟨0, 0⟩⟩] : List LmRow).length =
        ([⟨0, 0, 2, 2⟩] : List Prior).length ∧
      ∀ s ∈ anchorScores [((0 : ℚ), (1 : ℚ)/4)], s ≤ (1 : ℚ)/2) ∧
    detect_postprocess (fun q => q) [⟨0, 0, 2, 2⟩] [⟨0, 0, 0, 0⟩] [((0 : ℚ), (1 : ℚ)/4)]
      [⟨⟨0, 0⟩, ⟨0, 0⟩, ⟨0, 0⟩, ⟨0, 0⟩, ⟨0, 0⟩⟩] 1 1 1 1 ⟨1/2, 10, 1, 10⟩ = .ok [] :=
  ⟨⟨by decide, by decide, by decide, by decide⟩,
    detect_postprocess_empty_when_none_pass (fun q => q) [⟨0, 0, 2, 2⟩] [⟨0, 0, 0, 0⟩]
      [((0 : ℚ), (1 : ℚ)/4)] [⟨⟨0, 0⟩, ⟨0, 0⟩, ⟨0, 0⟩, ⟨0, 0⟩, ⟨0, 0⟩⟩] 1 1 1 1
      ⟨1/2, 10, 1, 10⟩ (by decide) (by decide) (by decide) (by decide)⟩

/-- C6 counterexample: an out-of-range top-k (post_nms_topk = 0) is not
rejected with any parameter error: the pipeline completes normally,
silently applying the value and returning the empty list. -/
theorem detect_postprocess_accepts_zero_topk :
    detect_postprocess (fun q => q) [⟨0, 0, 2, 2⟩] [⟨0, 0, 0, 0⟩] [((0 : ℚ), (1 : ℚ)/2)]
      [⟨⟨0, 0⟩, ⟨0, 0⟩, ⟨0, 0⟩, ⟨0, 0⟩, ⟨0, 0⟩⟩] 1 1 1 1 ⟨0, 10, 1, 0⟩ = .ok [] := by
  decide

/-- C6 as amended: the pipeline performs no parameter validation; an
out-of-range post_nms_topk of 0 is accepted and applied directly by the
truncation, so any well-shaped input completes without error with an
empty output. -/
theorem detect_postprocess_no_param_validation (expv : ℚ → ℚ) (priors : List Prior)
    (loc : List LocRow) (conf : List (ℚ × ℚ)) (landmarks : List LmRow)
    (v0 v1 img_width img_height : ℚ) (params : Params)
    (h1 : loc.length = priors.length) (h2 : conf.length = priors.length)
    (h3 : landmarks.length = priors.length) (hpost : params.post_nms_topk = 0) :
    detect_postprocess expv priors loc conf landmarks v0 v1 img_width img_height params =
      .ok [] := by
  rw [detect_postprocess_ok expv priors loc conf landmarks v0 v1 img_width img_height
    params h1 h2 h3]
  unfold postprocessPure corePipeline
  simp [hpost, pyTake]

/-- Witness for the amended C6: concrete well-shaped input with
post_nms_topk = 0 runs to completion with an empty result. -/
theorem detect_postprocess_no_param_validation_witness :
    (([⟨0, 0, 0, 0⟩] : List LocRow).length = ([⟨0, 0, 2, 2⟩] : List Prior).length ∧
      ([((0 : ℚ), (3 : ℚ)/4)] : List (ℚ × ℚ)).length = ([⟨0, 0, 2, 2⟩] : List Prior).length ∧
      ([⟨⟨0, 0⟩, ⟨0, 0⟩, ⟨0, 0⟩, ⟨0, 0⟩, ⟨0, 0⟩⟩] : List LmRow).length =
        ([⟨0, 0, 2, 2⟩] : List Prior).length ∧
      (Params.mk 0 10 1 0).post_nms_topk = 0) ∧
    detect_postprocess (fun q => q) [⟨0, 0, 2, 2⟩] [⟨0, 0, 0, 0⟩] [((0 : ℚ), (3 : ℚ)/4)]
      [⟨⟨0, 0⟩, ⟨0, 0⟩, ⟨0, 0⟩, ⟨0, 0⟩, ⟨0, 0⟩⟩] 1 1 1 1 ⟨0, 10, 1, 0⟩ = .ok [] :=
  ⟨⟨by decide, by decide, by decide, by decide⟩,
    detect_postprocess_no_param_validation (fun q => q) [⟨0, 0, 2, 2⟩] [⟨0, 0, 0, 0⟩]
      [((0 : ℚ), (3 : ℚ)/4)] [⟨⟨0, 0⟩, ⟨0, 0⟩, ⟨0, 0⟩, ⟨0, 0⟩, ⟨0, 0⟩⟩] 1 1 1 1
      ⟨0, 10, 1, 0⟩ (by decide) (by decide) (by decide) (by decide)⟩

/-- When all row counts agree, the NMS-input computation succeeds and
returns the plain composition nmsInputPure. -/
theorem detect_nms_input_ok (expv : ℚ → ℚ) (priors : List Prior) (loc : List LocRow)
    (conf : List (ℚ × ℚ)) (landmarks : List LmRow)
    (v0 v1 img_width img_height : ℚ) (params : Params)
    (h1 : loc.length = priors.length) (h2 : conf.length = priors.length)
    (h3 : landmarks.length = priors.length) :
    detect_nms_input expv priors loc conf landmarks v0 v1 img_width img_height params =
      .ok (nmsInputPure expv priors loc conf v0 v1 img_width img_height params) := by
  unfold detect_nms_input nmsInputPure decode decode_landmarks npMask
    decodedBoxes anchorScores confMask
  simp only [h1, h2, h3, List.length_map, List.length_zip, min_self, if_true,
    except_ok_bind, except_error_bind, reduceIte]

theorem detect_nms_input_shape_mismatch (expv : ℚ → ℚ) (priors : List Prior)
    (loc : List LocRow) (conf : List (ℚ × ℚ)) (landmarks : List LmRow)
    (v0 v1 img_width img_height : ℚ) (params : Params)
    (h : loc.length ≠ priors.length ∨ conf.length ≠ priors.length ∨
      landmarks.length ≠ priors.length) :
    detect_nms_input expv priors loc conf landmarks v0 v1 img_width img_height params =
      .error .shapeMismatch := by
  by_cases h1 : loc.length = priors.length
  · by_cases h3 : landmarks.length = priors.length
    · by_cases h2 : conf.length = priors.length
      · rcases h with h | h | h <;> exact absurd (by assumption) h
      · unfold detect_nms_input decode decode_landmarks npMask
        simp only [h1, h3, List.length_map, List.length_zip, min_self, if_true,
          except_ok_bind, except_error_bind, reduceIte]
        rw [if_neg (by simpa using h2)]
        rfl
    · unfold detect_nms_input decode decode_landmarks
      simp only [h1, if_true, except_ok_bind, reduceIte]
      rw [if_neg h3]
      rfl
  · unfold detect_nms_input decode
    rw [if_neg h1]
    rfl

/-- C7: for positive pre- and post-NMS top-k values, the candidate list
entering NMS has at most pre_nms_topk rows and the final detection list
has at most post_nms_topk rows. -/
theorem topk_truncation_bounds (expv : ℚ → ℚ) (priors : List Prior) (loc : List LocRow)
    (conf : List (ℚ × ℚ)) (landmarks : List LmRow)
    (v0 v1 img_width img_height : ℚ) (params : Params)
    (dets : List (Box × ℚ)) (out : List Detection)
    (hpre : 0 < params.pre_nms_topk) (hpost : 0 < params.post_nms_topk)
    (hdets : detect_nms_input expv priors loc conf landmarks v0 v1 img_width img_height
      params = .ok dets)
    (hout : detect_postprocess expv priors loc conf landmarks v0 v1 img_width img_height
      params = .ok out) :
    (dets.length : ℤ) ≤ params.pre_nms_topk ∧
      (out.length : ℤ) ≤ params.post_nms_topk := by
  by_cases h1 : loc.length = priors.length
  · by_cases h2 : conf.length = priors.length
    · by_cases h3 : landmarks.length = priors.length
      · rw [detect_nms_input_ok expv priors loc conf landmarks v0 v1 img_width img_height
          params h1 h2 h3] at hdets
        rw [detect_postprocess_ok expv priors loc conf landmarks v0 v1 img_width img_height
          params h1 h2 h3] at hout
        injection hdets with hdets
        injection hout with hout
        constructor
        · have hlen : (nmsInputPure expv priors loc conf v0 v1 img_width img_height
              params).length ≤ params.pre_nms_topk.toNat := by
            unfold nmsInputPure select
            simp only [List.length_zip, List.length_map, min_self]
            exact pyTake_length_le _ hpre.le _
          rw [← hdets]
          omega
        · have hlen : (postprocessPure expv priors loc conf landmarks v0 v1 img_width
              img_height params).length ≤ params.post_nms_topk.toNat := by
            unfold postprocessPure corePipeline
            simp only [List.length_map, List.length_zip]
            exact le_trans (min_le_left _ _) (pyTake_length_le _ hpost.le _)
          rw [← hout]
          omega
      · rw [detect_nms_input_shape_mismatch expv priors loc conf landmarks v0 v1
          img_width img_height params (Or.inr (Or.inr h3))] at hdets
        simp at hdets
    · rw [detect_nms_input_shape_mismatch expv priors loc conf landmarks v0 v1
        img_width img_height params (Or.inr (Or.inl h2))] at hdets
      simp at hdets
  · rw [detect_nms_input_shape_mismatch expv priors loc conf landmarks v0 v1
      img_width img_height params (Or.inl h1)] at hdets
    simp at hdets

/-- Witness for C7: a one-anchor run whose NMS input and final output both
have one row, within the top-k bounds of 10. -/
theorem topk_truncation_bounds_witness :
    ((0 : ℤ) < (10 : ℤ) ∧ (0 : ℤ) < (10 : ℤ) ∧
      detect_nms_input (fun q => q + 1) [⟨0, 0, 2, 2⟩] [⟨0, 0, 0, 0⟩]
        [((0 : ℚ), (3 : ℚ)/4)] [⟨⟨0, 0⟩, ⟨0, 0⟩, ⟨0, 0⟩, ⟨0, 0⟩, ⟨0, 0⟩⟩] 1 1 1 1
        ⟨0, 10, 1, 10⟩ = .ok [(⟨-1, -1, 1, 1⟩, (3 : ℚ)/4)] ∧
      detect_postprocess (fun q => q + 1) [⟨0, 0, 2, 2⟩] [⟨0, 0, 0, 0⟩]
        [((0 : ℚ), (3 : ℚ)/4)] [⟨⟨0, 0⟩, ⟨0, 0⟩, ⟨0, 0⟩, ⟨0, 0⟩, ⟨0, 0⟩⟩] 1 1 1 1
        ⟨0, 10, 1, 10⟩ =
        .ok [⟨⟨-1, -1, 1, 1⟩, (3 : ℚ)/4, ⟨⟨0, 0⟩, ⟨0, 0⟩, ⟨0, 0⟩, ⟨0, 0⟩, ⟨0, 0⟩⟩⟩]) ∧
    ((([(⟨-1, -1, 1, 1⟩, (3 : ℚ)/4)] : List (Box × ℚ)).length : ℤ) ≤ (10 : ℤ) ∧
      (([⟨⟨-1, -1, 1, 1⟩, (3 : ℚ)/4, ⟨⟨0, 0⟩, ⟨0, 0⟩, ⟨0, 0⟩, ⟨0, 0⟩, ⟨0, 0⟩⟩⟩] :
        List Detection).length : ℤ) ≤ (10 : ℤ)) :=
  ⟨⟨by decide, by decide, by decide, by decide⟩,
    topk_truncation_bounds (fun q => q + 1) [⟨0, 0, 2, 2⟩] [⟨0, 0, 0, 0⟩]
      [((0 : ℚ), (3 : ℚ)/4)] [⟨⟨0, 0⟩, ⟨0, 0⟩, ⟨0, 0⟩, ⟨0, 0⟩, ⟨0, 0⟩⟩] 1 1 1 1
      ⟨0, 10, 1, 10⟩ [(⟨-1, -1, 1, 1⟩, (3 : ℚ)/4)]
      [⟨⟨-1, -1, 1, 1⟩, (3 : ℚ)/4, ⟨⟨0, 0⟩, ⟨0, 0⟩, ⟨0, 0⟩, ⟨0, 0⟩, ⟨0, 0⟩⟩⟩]
      (by decide) (by decide) (by decide) (by decide)⟩

theorem pairwise_zip_left {α β : Type} {R : α → α → Prop} {l₁ : List α}
    (h : l₁.Pairwise R) (l₂ : List β) :
    (l₁.zip l₂).Pairwise fun a b => R a.1 b.1 := by
  rw [List.pairwise_iff_getElem] at h ⊢
  intro i j hi hj hij
  have hi1 : i < l₁.length := lt_of_lt_of_le hi (by simp [List.length_zip])
  have hj1 : j < l₁.length := lt_of_lt_of_le hj (by simp [List.length_zip])
  have := h i j hi1 hj1 hij
  simpa [List.getElem_zip] using this

theorem pairwise_zip_right {α β : Type} {R : β → β → Prop} (l₁ : List α)
    {l₂ : List β} (h : l₂.Pairwise R) :
    (l₁.zip l₂).Pairwise fun a b => R a.2 b.2 := by
  rw [List.pairwise_iff_getElem] at h ⊢
  intro i j hi hj hij
  have hi2 : i < l₂.length := lt_of_lt_of_le hi (by simp [List.length_zip])
  have hj2 : j < l₂.length := lt_of_lt_of_le hj (by simp [List.length_zip])
  have := h i j hi2 hj2 hij
  simpa [List.getElem_zip] using this

theorem corePipeline_scores_sorted (mask : List Bool) (decBoxes : List Box)
    (decScores : List ℚ) (decLms : List Landmark) (pre post : ℤ) (tn : ℚ) :
    ((corePipeline mask decBoxes decScores decLms pre post tn).map
      Detection.score).Pairwise fun a b => b ≤ a := by
  unfold corePipeline
  set scores := applyMask mask decScores with hscores
  set order := pyTake pre (argsortAsc scores).reverse with horder
  have h1 : order.Pairwise fun i j => scores.getD j 0 ≤ scores.getD i 0 := by
    apply List.Pairwise.sublist (pyTake_sublist _ _)
    rw [List.pairwise_reverse]
    exact argsortAsc_sorted scores
  have h2 : (select scores order).Pairwise fun a b => b ≤ a := by
    unfold select
    rw [List.pairwise_map]
    exact h1
  set boxesO := select (applyMask mask decBoxes) order with hboxesO
  set dets := boxesO.zip (select scores order) with hdets
  have h3 : dets.Pairwise fun a b => b.2 ≤ a.2 := pairwise_zip_right boxesO h2
  set keep := nms dets tn with hkeep
  have h4 : keep.Pairwise (· < ·) :=
    List.Pairwise.sublist (nms_sublist_range dets tn) (List.pairwise_lt_range _)
  have h5 : (select dets keep).Pairwise fun a b => b.2 ≤ a.2 :=
    pairwise_select h3 h4 (nms_mem_lt dets tn)
  have h6 : (pyTake post (select dets keep)).Pairwise fun a b => b.2 ≤ a.2 :=
    List.Pairwise.sublist (pyTake_sublist _ _) h5
  rw [List.map_map, List.pairwise_map]
  exact pairwise_zip_left h6 _

/-- C2: the final detection list of the pipeline is ordered non-increasing
in score. -/
theorem detect_postprocess_scores_sorted (expv : ℚ → ℚ) (priors : List Prior)
    (loc : List LocRow) (conf : List (ℚ × ℚ)) (landmarks : List LmRow)
    (v0 v1 img_width img_height : ℚ) (params : Params) (out : List Detection)
    (hout : detect_postprocess expv priors loc conf landmarks v0 v1 img_width img_height
      params = .ok out) :
    (out.map Detection.score).Pairwise fun a b => b ≤ a := by
  by_cases h1 : loc.length = priors.length
  · by_cases h2 : conf.length = priors.length
    · by_cases h3 : landmarks.length = priors.length
      · rw [detect_postprocess_ok expv priors loc conf landmarks v0 v1 img_width
          img_height params h1 h2 h3] at hout
        injection hout with hout
        rw [← hout]
        exact corePipeline_scores_sorted _ _ _ _ _ _ _
      · rw [detect_postprocess_shape_mismatch expv priors loc conf landmarks v0 v1
          img_width img_height params (Or.inr (Or.inr h3))] at hout
        simp at hout
    · rw [detect_postprocess_shape_mismatch expv priors loc conf landmarks v0 v1
        img_width img_height params (Or.inr (Or.inl h2))] at hout
      simp at hout
  · rw [detect_postprocess_shape_mismatch expv priors loc conf landmarks v0 v1
      img_width img_height params (Or.inl h1)] at hout
    simp at hout

/-- Witness for C2: a two-anchor run whose output lists the score 3/4
before 1/4, non-increasing. -/
theorem detect_postprocess_scores_sorted_witness :
    detect_postprocess (fun q => q + 1) [⟨0, 0, 2, 2⟩, ⟨10, 10, 2, 2⟩]
      [⟨0, 0, 0, 0⟩, ⟨0, 0, 0, 0⟩] [((0 : ℚ), (1 : ℚ)/4), ((0 : ℚ), (3 : ℚ)/4)]
      [⟨⟨0, 0⟩, ⟨0, 0⟩, ⟨0, 0⟩, ⟨0, 0⟩, ⟨0, 0⟩⟩, ⟨⟨0, 0⟩, ⟨0, 0⟩, ⟨0, 0⟩, ⟨0, 0⟩, ⟨0, 0⟩⟩]
      1 1 1 1 ⟨0, 10, 1, 10⟩ =
      .ok [⟨⟨9, 9, 11, 11⟩, (3 : ℚ)/4, ⟨⟨10, 10⟩, ⟨10, 10⟩, ⟨10, 10⟩, ⟨10, 10⟩, ⟨10, 10⟩⟩⟩,
        ⟨⟨-1, -1, 1, 1⟩, (1 : ℚ)/4, ⟨⟨0, 0⟩, ⟨0, 0⟩, ⟨0, 0⟩, ⟨0, 0⟩, ⟨0, 0⟩⟩⟩] ∧
    (([⟨⟨9, 9, 11, 11⟩, (3 : ℚ)/4, ⟨⟨10, 10⟩, ⟨10, 10⟩, ⟨10, 10⟩, ⟨10, 10⟩, ⟨10, 10⟩⟩⟩,
        ⟨⟨-1, -1, 1, 1⟩, (1 : ℚ)/4, ⟨⟨0, 0⟩, ⟨0, 0⟩, ⟨0, 0⟩, ⟨0, 0⟩, ⟨0, 0⟩⟩⟩] :
      List Detection).map Detection.score).Pairwise fun a b => b ≤ a :=
  ⟨by decide,
    detect_postprocess_scores_sorted (fun q => q + 1) [⟨0, 0, 2, 2⟩, ⟨10, 10, 2, 2⟩]
      [⟨0, 0, 0, 0⟩, ⟨0, 0, 0, 0⟩] [((0 : ℚ), (1 : ℚ)/4), ((0 : ℚ), (3 : ℚ)/4)]
      [⟨⟨0, 0⟩, ⟨0, 0⟩, ⟨0, 0⟩, ⟨0, 0⟩, ⟨0, 0⟩⟩, ⟨⟨0, 0⟩, ⟨0, 0⟩, ⟨0, 0⟩, ⟨0, 0⟩, ⟨0, 0⟩⟩]
      1 1 1 1 ⟨0, 10, 1, 10⟩ _ (by decide)⟩

theorem orderedInsert_tie_pairwise (s : List ℚ) (x : Nat) :
    ∀ m : List Nat,
      m.Pairwise (fun a b => s.getD a 0 = s.getD b 0 → a < b) →
      (∀ b ∈ m, x < b) →
      (List.orderedInsert (fun i j => s.getD i 0 ≤ s.getD j 0) x m).Pairwise
        (fun a b => s.getD a 0 = s.getD b 0 → a < b) := by
  intro m
  induction m with
  | nil =>
      intro _ _
      simp [List.orderedInsert]
  | cons y ys ih =>
      intro hpw hx
      rw [List.orderedInsert]
      by_cases hr : s.getD x 0 ≤ s.getD y 0
      · rw [if_pos hr]
        refine List.pairwise_cons.mpr ⟨?_, hpw⟩
        intro b hb _
        exact hx b hb
      · rw [if_neg hr]
        rcases List.pairwise_cons.mp hpw with ⟨hy, hys⟩
        refine List.pairwise_cons.mpr
          ⟨?_, ih hys fun b hb => hx b (List.mem_cons_of_mem _ hb)⟩
        intro b hb
        rcases (List.mem_orderedInsert _).mp hb with rfl | hb
        · intro heq
          exact absurd (le_of_eq heq.symm) hr
        · exact hy b hb

theorem insertionSort_tie_pairwise (s : List ℚ) :
    ∀ l : List Nat, l.Pairwise (· < ·) →
      (List.insertionSort (fun i j => s.getD i 0 ≤ s.getD j 0) l).Pairwise
        (fun a b => s.getD a 0 = s.getD b 0 → a < b) := by
  intro l
  induction l with
  | nil =>
      intro _
      simp [List.insertionSort]
  | cons x xs ih =>
      intro hpw
      rcases List.pairwise_cons.mp hpw with ⟨hx, hxs⟩
      rw [List.insertionSort]
      refine orderedInsert_tie_pairwise s x _ (ih hxs) ?_
      intro b hb
      exact hx b ((List.perm_insertionSort _ _).subset hb)

theorem argsortAsc_tie_pairwise (s : List ℚ) :
    (argsortAsc s).Pairwise fun a b => s.getD a 0 = s.getD b 0 → a < b :=
  insertionSort_tie_pairwise s _ (List.pairwise_lt_range _)

/-- C3 as amended: the pre-NMS ranking (ascending stable argsort, then
reversal and slicing) lists candidates by descending score, but
equal-score candidates appear with the HIGHER original position first:
the ascending stable order of ties is inverted by the reversal, so the
lower-index candidate does not precede the higher-index one. -/
theorem preNms_order_sorted_ties_desc (s : List ℚ) (k : ℤ) :
    (pyTake k (argsortAsc s).reverse).Pairwise fun i j =>
      s.getD j 0 ≤ s.getD i 0 ∧ (s.getD i 0 = s.getD j 0 → j < i) := by
  apply List.Pairwise.sublist (pyTake_sublist _ _)
  rw [List.pairwise_reverse]
  refine List.Pairwise.and (argsortAsc_sorted s) ?_
  refine (argsortAsc_tie_pairwise s).imp ?_
  intro a b h heq
  exact h heq.symm

/-- C3 counterexample: two anchors with the same score 1/2; the pipeline
emits the anchor-1 detection (box (9,9,11,11)) before the anchor-0
detection (box (-1,-1,1,1)), so equal-score candidates are NOT ordered
with the lower original anchor index first. -/
theorem preNms_tie_lower_index_first_false :
    detect_postprocess (fun q => q + 1) [⟨0, 0, 2, 2⟩, ⟨10, 10, 2, 2⟩]
      [⟨0, 0, 0, 0⟩, ⟨0, 0, 0, 0⟩] [((0 : ℚ), (1 : ℚ)/2), ((0 : ℚ), (1 : ℚ)/2)]
      [⟨⟨0, 0⟩, ⟨0, 0⟩, ⟨0, 0⟩, ⟨0, 0⟩, ⟨0, 0⟩⟩, ⟨⟨0, 0⟩, ⟨0, 0⟩, ⟨0, 0⟩, ⟨0, 0⟩, ⟨0, 0⟩⟩]
      1 1 1 1 ⟨0, 10, 1, 10⟩ =
      .ok [⟨⟨9, 9, 11, 11⟩, (1 : ℚ)/2, ⟨⟨10, 10⟩, ⟨10, 10⟩, ⟨10, 10⟩, ⟨10, 10⟩, ⟨10, 10⟩⟩⟩,
        ⟨⟨-1, -1, 1, 1⟩, (1 : ℚ)/2, ⟨⟨0, 0⟩, ⟨0, 0⟩, ⟨0, 0⟩, ⟨0, 0⟩, ⟨0, 0⟩⟩⟩] := by
  decide

/-- Every stage of the core pipeline applies one common index selection to
the box, score and landmark arrays: the whole output is one trace of
original positions, mapped over the three decoded arrays. -/
theorem corePipeline_trace (n : Nat) (mask : List Bool) (decBoxes : List Box)
    (decScores : List ℚ) (decLms : List Landmark)
    (hB : decBoxes.length = n) (hS : decScores.length = n) (hL : decLms.length = n)
    (pre post : ℤ) (tn : ℚ) :
    ∃ tr : List Nat, (∀ i ∈ tr, i < n) ∧
      corePipeline mask decBoxes decScores decLms pre post tn =
        tr.map fun i => ⟨decBoxes.getD i default, decScores.getD i default,
          decLms.getD i default⟩ := by
  set tr1 := applyMask mask (List.range n) with htr1def
  have e1B : applyMask mask decBoxes = tr1.map fun i => decBoxes.getD i default := by
    rw [applyMask_getD_trace mask decBoxes, hB]
  have e1S : applyMask mask decScores = tr1.map fun i => decScores.getD i default := by
    rw [applyMask_getD_trace mask decScores, hS]
  have e1L : applyMask mask decLms = tr1.map fun i => decLms.getD i default := by
    rw [applyMask_getD_trace mask decLms, hL]
  have htr1 : ∀ i ∈ tr1, i < n := fun i hi =>
    List.mem_range.mp ((applyMask_sublist _ _).subset hi)
  set order := pyTake pre
    (argsortAsc (tr1.map fun i => decScores.getD i default)).reverse with horderdef
  have hord : ∀ j ∈ order, j < tr1.length := by
    intro j hj
    have hj2 : j ∈ argsortAsc (tr1.map fun i => decScores.getD i default) :=
      List.mem_reverse.mp ((pyTake_sublist _ _).subset hj)
    have := argsortAsc_mem _ j hj2
    simpa using this
  set tr2 := select tr1 order with htr2def
  have e2B := select_map (fun i => decBoxes.getD i default) tr1 order hord
  have e2S := select_map (fun i => decScores.getD i default) tr1 order hord
  have e2L := select_map (fun i => decLms.getD i default) tr1 order hord
  have htr2 : ∀ i ∈ tr2, i < n := fun i hi =>
    htr1 i (select_mem tr1 order hord i hi)
  set keep := nms (tr2.map fun i =>
    (decBoxes.getD i default, decScores.getD i default)) tn with hkeepdef
  have hkeep : ∀ i ∈ keep, i < tr2.length := by
    intro i hi
    have := nms_mem_lt _ tn i hi
    simpa [hkeepdef] using this
  set tr3 := select tr2 keep with htr3def
  have e3D := select_map (fun i => (decBoxes.getD i default, decScores.getD i default))
    tr2 keep hkeep
  have e3L := select_map (fun i => decLms.getD i default) tr2 keep hkeep
  have htr3 : ∀ i ∈ tr3, i < n := fun i hi =>
    htr2 i (select_mem tr2 keep hkeep i hi)
  set tr4 := pyTake post tr3 with htr4def
  have htr4 : ∀ i ∈ tr4, i < n := fun i hi =>
    htr3 i ((pyTake_sublist _ _).subset hi)
  refine ⟨tr4, htr4, ?_⟩
  simp only [corePipeline]
  rw [e1B, e1S, e1L, e2B, e2S, e2L, List.zip_map']
  rw [e3D, e3L, pyTake_map, pyTake_map, List.zip_map', List.map_map]
  rfl

/-- C9: in every output row the box, score and landmark all come from one
common original anchor: the mask, sort, NMS keep and truncation are
applied identically to the three arrays. -/
theorem detect_postprocess_alignment (expv : ℚ → ℚ) (priors : List Prior)
    (loc : List LocRow) (conf : List (ℚ × ℚ)) (landmarks : List LmRow)
    (v0 v1 img_width img_height : ℚ) (params : Params) (out : List Detection)
    (hout : detect_postprocess expv priors loc conf landmarks v0 v1 img_width img_height
      params = .ok out) (k : Nat) (hk : k < out.length) :
    ∃ i, i < priors.length ∧
      out.getD k default =
        ⟨(decodedBoxes expv priors loc v0 v1 img_width img_height).getD i default,
          (anchorScores conf).getD i default,
          (decodedLandmarks priors landmarks v0 img_width img_height).getD i default⟩ := by
  by_cases h1 : loc.length = priors.length
  · by_cases h2 : conf.length = priors.length
    · by_cases h3 : landmarks.length = priors.length
      · rw [detect_postprocess_ok expv priors loc conf landmarks v0 v1 img_width
          img_height params h1 h2 h3] at hout
        injection hout with hout
        have hDB : (decodedBoxes expv priors loc v0 v1 img_width img_height).length =
            priors.length := by
          simp [decodedBoxes, h1]
        have hSc : (anchorScores conf).length = priors.length := by
          simp [anchorScores, h2]
        have hDL : (decodedLandmarks priors landmarks v0 img_width img_height).length =
            priors.length := by
          simp [decodedLandmarks, h3]
        obtain ⟨tr, htr, heq⟩ := corePipeline_trace priors.length
          (confMask conf params.conf_threshold)
          (decodedBoxes expv priors loc v0 v1 img_width img_height)
          (anchorScores conf)
          (decodedLandmarks priors landmarks v0 img_width img_height)
          hDB hSc hDL params.pre_nms_topk params.post_nms_topk params.nms_threshold
        have hout2 : out = tr.map fun i =>
            (⟨(decodedBoxes expv priors loc v0 v1 img_width img_height).getD i default,
              (anchorScores conf).getD i default,
              (decodedLandmarks priors landmarks v0 img_width img_height).getD i default⟩ :
              Detection) := by
          rw [← hout]
          exact heq
        have hk2 : k < tr.length := by
          rw [hout2] at hk
          simpa using hk
        refine ⟨tr.getD k 0, ?_, ?_⟩
        · refine htr _ ?_
          rw [List.getD_eq_getElem tr 0 hk2]
          exact List.getElem_mem _
        · rw [hout2, List.getD_eq_getElem _ _ (by simpa using hk2), List.getElem_map,
            List.getD_eq_getElem tr 0 hk2]
      · rw [detect_postprocess_shape_mismatch expv priors loc conf landmarks v0 v1
          img_width img_height params (Or.inr (Or.inr h3))] at hout
        simp at hout
    · rw [detect_postprocess_shape_mismatch expv priors loc conf landmarks v0 v1
        img_width img_height params (Or.inr (Or.inl h2))] at hout
      simp at hout
  · rw [detect_postprocess_shape_mismatch expv priors loc conf landmarks v0 v1
      img_width img_height params (Or.inl h1)] at hout
    simp at hout

/-- Witness for C9: in a one-anchor run, the single output row carries the
decoded box, the score and the decoded landmark of that same anchor. -/
theorem detect_postprocess_alignment_witness :
    (detect_postprocess (fun q => q + 2) [⟨0, 0, 2, 2⟩] [⟨0, 0, 0, 0⟩]
      [((0 : ℚ), (3 : ℚ)/4)] [⟨⟨0, 0⟩, ⟨0, 0⟩, ⟨0, 0⟩, ⟨0, 0⟩, ⟨0, 0⟩⟩] 1 1 1 1
      ⟨0, 10, 1, 10⟩ =
      .ok [⟨⟨-2, -2, 2, 2⟩, (3 : ℚ)/4, ⟨⟨0, 0⟩, ⟨0, 0⟩, ⟨0, 0⟩, ⟨0, 0⟩, ⟨0, 0⟩⟩⟩] ∧
      0 < ([⟨⟨-2, -2, 2, 2⟩, (3 : ℚ)/4, ⟨⟨0, 0⟩, ⟨0, 0⟩, ⟨0, 0⟩, ⟨0, 0⟩, ⟨0, 0⟩⟩⟩] :
        List Detection).length) ∧
    ∃ i, i < ([⟨0, 0, 2, 2⟩] : List Prior).length ∧
      ([⟨⟨-2, -2, 2, 2⟩, (3 : ℚ)/4, ⟨⟨0, 0⟩, ⟨0, 0⟩, ⟨0, 0⟩, ⟨0, 0⟩, ⟨0, 0⟩⟩⟩] :
        List Detection).getD 0 default =
        ⟨(decodedBoxes (fun q => q + 2) [⟨0, 0, 2, 2⟩] [⟨0, 0, 0, 0⟩] 1 1 1 1).getD i default,
          (anchorScores [((0 : ℚ), (3 : ℚ)/4)]).getD i default,
          (decodedLandmarks [⟨0, 0, 2, 2⟩] [⟨⟨0, 0⟩, ⟨0, 0⟩, ⟨0, 0⟩, ⟨0, 0⟩, ⟨0, 0⟩⟩]
            1 1 1).getD i default⟩ :=
  ⟨⟨by decide, by decide⟩,
    detect_postprocess_alignment (fun q => q + 2) [⟨0, 0, 2, 2⟩] [⟨0, 0, 0, 0⟩]
      [((0 : ℚ), (3 : ℚ)/4)] [⟨⟨0, 0⟩, ⟨0, 0⟩, ⟨0, 0⟩, ⟨0, 0⟩, ⟨0, 0⟩⟩] 1 1 1 1
      ⟨0, 10, 1, 10⟩ _ (by decide) 0 (by decide)⟩

end RetinaFacePostprocess
